import Mathlib

/-!
Verification of the conjugate-Bayesian core of `bayes_intro.py`.

The notebook's numerical core consists of:
* the Beta-Bernoulli conjugate update `apost = aprior + N1; bpost = bprior + N0`;
* three credible-interval computations `CI1` (library helper `beta.interval`),
  `CI2` (manual inverse-CDF) and `CI3` (Monte-Carlo percentiles);
* grid-based point estimates under L1/L2 loss via `np.argmin`;
* the Gaussian known-variance update
  `Sigma_post = 1/(1/Sigma_prior + N/Sigma_x)`,
  `mu_post = Sigma_post*(1/Sigma_x*N*xbar + 1/Sigma_prior*mu_prior)`;
* the hand-computed log joint `log_joint = log_prior + log_lik`.

Real-valued quantities are embedded as rationals; library density/quantile
functions (`scipy.stats.beta.ppf`, `scipy.stats.norm.logpdf`, the seeded
sampler) are abstract function parameters, since the notebook delegates
those computations to scipy/numpy.
-/

namespace BayesIntro

/-- Beta prior: the shape parameters `aprior`, `bprior` of the source. -/
structure BetaPrior where
  alpha : ℚ
  beta : ℚ
deriving DecidableEq

/-- Bernoulli observations: the binary list `data` of the source
(`data = stats.bernoulli.rvs(...)`). -/
structure BernoulliObservationSet where
  data : List Bool
deriving DecidableEq

/-- `N = ntrials` in the source (length of the data vector). -/
def BernoulliObservationSet.numTrials (o : BernoulliObservationSet) : ℕ :=
  o.data.length

/-- `N1 = sum(data)` in the source: the number of successes. -/
def BernoulliObservationSet.numSuccesses (o : BernoulliObservationSet) : ℕ :=
  o.data.count true

/-- Beta posterior with parameters `apost`, `bpost`. -/
structure BetaPosterior where
  alpha : ℚ
  beta : ℚ
deriving DecidableEq

/-- Source: `N0 = N - N1; apost = aprior + N1; bpost = bprior + N0`. -/
def updatePosterior (prior : BetaPrior) (obs : BernoulliObservationSet) :
    BetaPosterior :=
  let N1 := obs.numSuccesses
  let N0 := obs.numTrials - N1
  ⟨prior.alpha + (N1 : ℚ), prior.beta + (N0 : ℚ)⟩

/-- Gaussian prior: `mu_prior` and `Sigma_prior` (variance) of the source. -/
structure GaussianPrior where
  mean : ℚ
  variance : ℚ
deriving DecidableEq

/-- Gaussian observations: the sample vector `x` with known observation
variance `Sigma_x`. -/
structure GaussianObservationSet where
  samples : List ℚ
  observationVariance : ℚ
deriving DecidableEq

/-- `N` in the source: the number of Gaussian observations. -/
def GaussianObservationSet.n (o : GaussianObservationSet) : ℕ :=
  o.samples.length

/-- `xbar = np.mean(x)` in the source. -/
def GaussianObservationSet.sampleMean (o : GaussianObservationSet) : ℚ :=
  o.samples.sum / (o.samples.length : ℚ)

/-- Gaussian posterior `(mu_post, Sigma_post)`. -/
structure GaussianPosterior where
  posteriorMean : ℚ
  posteriorVariance : ℚ
deriving DecidableEq

/-- Source lines:
`Sigma_post = 1/( 1/Sigma_prior + N/Sigma_x )` and
`mu_post = Sigma_post * (1/Sigma_x * N * xbar + 1/Sigma_prior * mu_prior)`. -/
def updateGaussianPosterior (prior : GaussianPrior)
    (obs : GaussianObservationSet) : GaussianPosterior :=
  let Sigma_post : ℚ :=
    1 / (1 / prior.variance + (obs.n : ℚ) / obs.observationVariance)
  let mu_post : ℚ :=
    Sigma_post * (1 / obs.observationVariance * (obs.n : ℚ) * obs.sampleMean
      + 1 / prior.variance * prior.mean)
  ⟨mu_post, Sigma_post⟩

/-- C1: for every valid Beta prior and Bernoulli observation set with
`numTrials = N` and `numSuccesses = k`, `updatePosterior` returns exactly
`alpha + k` and `beta + N - k`, with no approximation. -/
theorem updatePosterior_beta_exact (prior : BetaPrior)
    (obs : BernoulliObservationSet)
    (ha : 0 < prior.alpha) (hb : 0 < prior.beta) :
    (updatePosterior prior obs).alpha
        = prior.alpha + (obs.numSuccesses : ℚ) ∧
    (updatePosterior prior obs).beta
        = prior.beta + (obs.numTrials : ℚ) - (obs.numSuccesses : ℚ) := by
  have hk : obs.numSuccesses ≤ obs.numTrials := List.count_le_length _ _
  constructor
  · rfl
  · show prior.beta + ((obs.numTrials - obs.numSuccesses : ℕ) : ℚ) = _
    rw [Nat.cast_sub hk]
    ring

/-- Witness for C1 at a concrete prior and data set. -/
theorem updatePosterior_beta_exact_witness :
    (0 : ℚ) < 1 ∧ (0 : ℚ) < 1 ∧
    ((updatePosterior ⟨1, 1⟩ ⟨[true, false, true, true]⟩).alpha
        = 1 + ((BernoulliObservationSet.mk [true, false, true, true]).numSuccesses : ℚ) ∧
      (updatePosterior ⟨1, 1⟩ ⟨[true, false, true, true]⟩).beta
        = 1 + ((BernoulliObservationSet.mk [true, false, true, true]).numTrials : ℚ)
            - ((BernoulliObservationSet.mk [true, false, true, true]).numSuccesses : ℚ)) :=
  ⟨by norm_num, by norm_num,
    updatePosterior_beta_exact ⟨1, 1⟩ ⟨[true, false, true, true]⟩
      (by norm_num) (by norm_num)⟩

/-- C2: the Gaussian update returns exactly the precision-weighted
posterior variance and mean stated in the spec. -/
theorem updateGaussianPosterior_formula (prior : GaussianPrior)
    (obs : GaussianObservationSet)
    (hv : 0 < prior.variance) (hov : 0 < obs.observationVariance) :
    (updateGaussianPosterior prior obs).posteriorVariance
        = 1 / (1 / prior.variance + (obs.n : ℚ) / obs.observationVariance) ∧
    (updateGaussianPosterior prior obs).posteriorMean
        = (updateGaussianPosterior prior obs).posteriorVariance
            * ((obs.n : ℚ) * obs.sampleMean / obs.observationVariance
                + prior.mean / prior.variance) := by
  refine ⟨rfl, ?_⟩
  show (1 / (1 / prior.variance + (obs.n : ℚ) / obs.observationVariance))
        * (1 / obs.observationVariance * (obs.n : ℚ) * obs.sampleMean
            + 1 / prior.variance * prior.mean) = _
  congr 1
  ring

/-- Witness for C2 at the notebook's parameters
(`mu_prior = 1.1`, `Sigma_prior = 1.44`, `Sigma_x = 1.69`). -/
theorem updateGaussianPosterior_formula_witness :
    (0 : ℚ) < 144/100 ∧ (0 : ℚ) < 169/100 ∧
    ((updateGaussianPosterior ⟨11/10, 144/100⟩
        ⟨[1, 0, 2], 169/100⟩).posteriorVariance
      = 1 / (1 / (144/100)
          + ((GaussianObservationSet.mk [1, 0, 2] (169/100)).n : ℚ) / (169/100)) ∧
     (updateGaussianPosterior ⟨11/10, 144/100⟩
        ⟨[1, 0, 2], 169/100⟩).posteriorMean
      = (updateGaussianPosterior ⟨11/10, 144/100⟩
          ⟨[1, 0, 2], 169/100⟩).posteriorVariance
          * (((GaussianObservationSet.mk [1, 0, 2] (169/100)).n : ℚ)
                * (GaussianObservationSet.mk [1, 0, 2] (169/100)).sampleMean
                  / (169/100)
              + (11/10) / (144/100))) :=
  ⟨by norm_num, by norm_num,
    updateGaussianPosterior_formula ⟨11/10, 144/100⟩ ⟨[1, 0, 2], 169/100⟩
      (by norm_num) (by norm_num)⟩

/-- C4: with positive prior and observation variances and at least one
observation, the posterior variance is bounded by the prior variance and by
`observationVariance / n`. -/
theorem gaussianPosteriorVariance_le (prior : GaussianPrior)
    (obs : GaussianObservationSet)
    (hv : 0 < prior.variance) (hov : 0 < obs.observationVariance)
    (hn : 0 < obs.n) :
    (updateGaussianPosterior prior obs).posteriorVariance ≤ prior.variance ∧
    (updateGaussianPosterior prior obs).posteriorVariance
        ≤ obs.observationVariance / (obs.n : ℚ) := by
  set Sp := prior.variance with hSp
  set Sx := obs.observationVariance with hSx
  have hnq : (0 : ℚ) < (obs.n : ℚ) := by exact_mod_cast hn
  have hD : 0 < 1 / Sp + (obs.n : ℚ) / Sx := by positivity
  have hpost : (updateGaussianPosterior prior obs).posteriorVariance
      = 1 / (1 / Sp + (obs.n : ℚ) / Sx) := rfl
  rw [hpost]
  constructor
  · rw [div_le_iff hD]
    have h1 : Sp * (1 / Sp + (obs.n : ℚ) / Sx)
        = 1 + Sp * (obs.n : ℚ) / Sx := by
      field_simp
      ring
    have h2 : 0 ≤ Sp * (obs.n : ℚ) / Sx := by positivity
    nlinarith
  · rw [div_le_div_iff hD hnq]
    have h1 : Sx * ((1 : ℚ) / Sp + (obs.n : ℚ) / Sx)
        = Sx / Sp + (obs.n : ℚ) := by
      field_simp
      ring
    have h2 : 0 ≤ Sx / Sp := by positivity
    nlinarith

/-- Witness for C4: one observation, prior variance 4, observation
variance 2. -/
theorem gaussianPosteriorVariance_le_witness :
    (0 : ℚ) < 4 ∧ (0 : ℚ) < 2 ∧
    0 < (GaussianObservationSet.mk [5] 2).n ∧
    ((updateGaussianPosterior ⟨0, 4⟩ ⟨[5], 2⟩).posteriorVariance ≤ 4 ∧
     (updateGaussianPosterior ⟨0, 4⟩ ⟨[5], 2⟩).posteriorVariance
        ≤ 2 / ((GaussianObservationSet.mk [5] 2).n : ℚ)) :=
  ⟨by norm_num, by norm_num, by decide,
    gaussianPosteriorVariance_le ⟨0, 4⟩ ⟨[5], 2⟩
      (by norm_num) (by norm_num) (by decide)⟩

/-- C8 counterexample: with the malformed prior variance `-2` (and a single
observation of variance 1) the source raises no error at all; it returns an
ordinary posterior, here with variance 2 — a value produced from invalid
parameters rather than an `InvalidParameterError`. -/
theorem updateGaussian_no_error_on_invalid :
    (updateGaussianPosterior ⟨0, -2⟩ ⟨[0], 1⟩)
      = GaussianPosterior.mk 0 2 := by
  unfold updateGaussianPosterior
  norm_num [GaussianObservationSet.n, GaussianObservationSet.sampleMean]

/-- C8 amended: the source performs no parameter validation; the update is a
total pure function that returns the arithmetic result even on malformed
parameters. In particular a negative prior variance can make the computed
"posterior variance" negative. -/
theorem updateGaussian_no_validation (prior : GaussianPrior)
    (obs : GaussianObservationSet)
    (hv : prior.variance < 0)
    (hD : 1 / prior.variance + (obs.n : ℚ) / obs.observationVariance < 0) :
    (updateGaussianPosterior prior obs).posteriorVariance < 0 := by
  have hpost : (updateGaussianPosterior prior obs).posteriorVariance
      = 1 / (1 / prior.variance + (obs.n : ℚ) / obs.observationVariance) :=
    rfl
  rw [hpost]
  exact one_div_neg.mpr hD

/-- Witness for the amended C8: prior variance `-4`, one observation with
variance 8. -/
theorem updateGaussian_no_validation_witness :
    (-4 : ℚ) < 0 ∧
    1 / (-4 : ℚ) + ((GaussianObservationSet.mk [0] 8).n : ℚ) / 8 < 0 ∧
    (updateGaussianPosterior ⟨0, -4⟩ ⟨[0], 8⟩).posteriorVariance < 0 :=
  ⟨by norm_num, by norm_num [GaussianObservationSet.n],
    updateGaussian_no_validation ⟨0, -4⟩ ⟨[0], 8⟩ (by norm_num)
      (by norm_num [GaussianObservationSet.n])⟩

/-! ## Credible intervals

`scipy.stats.beta.ppf(q, a, b)` is library code: it is embedded as an
abstract quantile function `ppf : ℚ → ℚ → ℚ → ℚ` (probability, then the two
shape parameters), exactly the argument order of the scipy call. -/

/-- Source: `l = beta.ppf(alpha/2, apost, bpost);`
`u = beta.ppf(1-alpha/2, apost, bpost); CI2 = (l, u)`, where `alpha` is the
total tail mass (0.05 in the notebook). -/
def CI2 (ppf : ℚ → ℚ → ℚ → ℚ) (post : BetaPosterior) (alpha : ℚ) :
    ℚ × ℚ :=
  (ppf (alpha / 2) post.alpha post.beta,
   ppf (1 - alpha / 2) post.alpha post.beta)

/-- The spec's wording of the credible interval, for the refinement claims:
lower endpoint at probability `(1-level)/2`, upper endpoint at probability
`1-(1-level)/2` of the Beta posterior. -/
def credibleIntervalSpec (ppf : ℚ → ℚ → ℚ → ℚ) (post : BetaPosterior)
    (level : ℚ) : ℚ × ℚ :=
  (ppf ((1 - level) / 2) post.alpha post.beta,
   ppf (1 - (1 - level) / 2) post.alpha post.beta)

/-- Modelled from the spec: `scipy.stats.beta.interval(conf, a, b)` — the
library interval helper used for `CI1` — is library code absent from the
source; per its documented semantics ("equal areas around the median") it
returns the equal-tailed interval
`(ppf((1-conf)/2, a, b), ppf(1-(1-conf)/2, a, b))`. -/
def beta_interval (ppf : ℚ → ℚ → ℚ → ℚ) (conf : ℚ) (a b : ℚ) : ℚ × ℚ :=
  (ppf ((1 - conf) / 2) a b, ppf (1 - (1 - conf) / 2) a b)

/-- Source: `CI1 = beta.interval(1-alpha, apost, bpost)`. -/
def CI1 (ppf : ℚ → ℚ → ℚ → ℚ) (post : BetaPosterior) (alpha : ℚ) :
    ℚ × ℚ :=
  beta_interval ppf (1 - alpha) post.alpha post.beta

/-- C3: for a level in (0,1), the manual interval `CI2` (called with tail
mass `alpha = 1 - level`) is exactly the two-sided tail interval of the
spec: inverse CDF at `(1-level)/2` and at `1-(1-level)/2`. -/
theorem CI2_two_sided (ppf : ℚ → ℚ → ℚ → ℚ) (post : BetaPosterior)
    (level : ℚ) (h0 : 0 < level) (h1 : level < 1) :
    CI2 ppf post (1 - level) = credibleIntervalSpec ppf post level := by
  rfl

/-- Witness for C3 at `level = 0.95` and the identity quantile function. -/
theorem CI2_two_sided_witness :
    (0 : ℚ) < 95/100 ∧ (95/100 : ℚ) < 1 ∧
    CI2 (fun q _ _ => q) ⟨34, 68⟩ (1 - 95/100)
      = credibleIntervalSpec (fun q _ _ => q) ⟨34, 68⟩ (95/100) :=
  ⟨by norm_num, by norm_num,
    CI2_two_sided (fun q _ _ => q) ⟨34, 68⟩ (95/100)
      (by norm_num) (by norm_num)⟩

/-- C9: when the Beta quantile function is monotone in its probability
argument (true of any inverse CDF), the credible interval is monotone in the
level: the `level2` interval contains the `level1` interval. -/
theorem credibleInterval_monotone (ppf : ℚ → ℚ → ℚ → ℚ)
    (post : BetaPosterior) (level1 level2 : ℚ)
    (hmono : ∀ a b q1 q2, q1 ≤ q2 → ppf q1 a b ≤ ppf q2 a b)
    (h0 : 0 < level1) (h12 : level1 < level2) (h1 : level2 < 1) :
    (credibleIntervalSpec ppf post level2).1
        ≤ (credibleIntervalSpec ppf post level1).1 ∧
    (credibleIntervalSpec ppf post level1).2
        ≤ (credibleIntervalSpec ppf post level2).2 := by
  constructor
  · exact hmono post.alpha post.beta _ _ (by linarith)
  · exact hmono post.alpha post.beta _ _ (by linarith)

/-- Witness for C9 with the identity quantile function and levels
`0.5 < 0.95`. -/
theorem credibleInterval_monotone_witness :
    (∀ a b q1 q2 : ℚ, q1 ≤ q2 →
        (fun q _ _ => q : ℚ → ℚ → ℚ → ℚ) q1 a b
          ≤ (fun q _ _ => q : ℚ → ℚ → ℚ → ℚ) q2 a b) ∧
    (0 : ℚ) < 1/2 ∧ (1/2 : ℚ) < 95/100 ∧ (95/100 : ℚ) < 1 ∧
    ((credibleIntervalSpec (fun q _ _ => q) ⟨34, 68⟩ (95/100)).1
        ≤ (credibleIntervalSpec (fun q _ _ => q) ⟨34, 68⟩ (1/2)).1 ∧
     (credibleIntervalSpec (fun q _ _ => q) ⟨34, 68⟩ (1/2)).2
        ≤ (credibleIntervalSpec (fun q _ _ => q) ⟨34, 68⟩ (95/100)).2) :=
  ⟨fun _ _ _ _ h => h, by norm_num, by norm_num, by norm_num,
    credibleInterval_monotone (fun q _ _ => q) ⟨34, 68⟩ (1/2) (95/100)
      (fun _ _ _ _ h => h) (by norm_num) (by norm_num) (by norm_num)⟩

/-- C10 counterexample: there is no posterior, quantile function and level at
which the library interval helper disagrees with the manual two-sided pair —
`beta.interval(level, a', b')` is exactly
`(ppf((1-level)/2, a', b'), ppf(1-(1-level)/2, a', b'))`. -/
theorem interval_helper_never_differs :
    ¬ ∃ (ppf : ℚ → ℚ → ℚ → ℚ) (post : BetaPosterior) (level : ℚ),
        beta_interval ppf level post.alpha post.beta
          ≠ credibleIntervalSpec ppf post level := by
  rintro ⟨ppf, post, level, h⟩
  exact h rfl

/-- C10 amended: the library helper and the manual method agree exactly; in
particular, as called in the source (`CI1` with confidence `1 - alpha`,
`CI2` with tail mass `alpha`), the two computed intervals are equal for
every `alpha`. The source is consistently two-sided. -/
theorem CI1_eq_CI2 (ppf : ℚ → ℚ → ℚ → ℚ) (post : BetaPosterior)
    (alpha : ℚ) :
    CI1 ppf post alpha = CI2 ppf post alpha := by
  unfold CI1 CI2 beta_interval
  have h1 : (1 - (1 - alpha)) / 2 = alpha / 2 := by ring
  rw [h1]

/-! ## Log joint for the Gaussian model

`scipy.stats.norm(m, s).logpdf(x)` is library code: it is embedded as an
abstract log-density `normLogpdf m s x`. -/

/-- Source: `log_prior = scipy.stats.norm(mu_prior, sigma_prior).logpdf(mu_clamped)`. -/
def log_prior (normLogpdf : ℚ → ℚ → ℚ → ℚ)
    (mu_prior sigma_prior mu_clamped : ℚ) : ℚ :=
  normLogpdf mu_prior sigma_prior mu_clamped

/-- Source: `log_lik = np.sum(scipy.stats.norm(mu_clamped, sigma_x).logpdf(x))`. -/
def log_lik (normLogpdf : ℚ → ℚ → ℚ → ℚ) (mu_clamped sigma_x : ℚ)
    (x : List ℚ) : ℚ :=
  (x.map (fun xi => normLogpdf mu_clamped sigma_x xi)).sum

/-- Source: `log_joint = log_prior + log_lik`, the independent "by hand"
computation of the log joint. -/
def log_joint (normLogpdf : ℚ → ℚ → ℚ → ℚ)
    (mu_prior sigma_prior mu_clamped sigma_x : ℚ) (x : List ℚ) : ℚ :=
  log_prior normLogpdf mu_prior sigma_prior mu_clamped
    + log_lik normLogpdf mu_clamped sigma_x x

/-- Modelled from the spec: pymc3's `model.logp({'mu': mu_clamped})` is
library code absent from the source; per the spec, `logJoint` returns
`logPrior(muCandidate) + Σ logLikelihood(x_i; muCandidate,
observationStdDev)`, embedded here as a left fold accumulating the
per-observation log-likelihood terms onto the log prior. -/
def modelLogp (normLogpdf : ℚ → ℚ → ℚ → ℚ)
    (mu_prior sigma_prior mu_clamped sigma_x : ℚ) (x : List ℚ) : ℚ :=
  x.foldl (fun acc xi => acc + normLogpdf mu_clamped sigma_x xi)
    (normLogpdf mu_prior sigma_prior mu_clamped)

lemma foldl_add_eq_sum (f : ℚ → ℚ) :
    ∀ (l : List ℚ) (init : ℚ),
      l.foldl (fun acc xi => acc + f xi) init = init + (l.map f).sum := by
  intro l
  induction l with
  | nil => intro init; simp
  | cons x t ih =>
      intro init
      simp only [List.foldl_cons, List.map_cons, List.sum_cons]
      rw [ih]
      ring

/-- C5: `logJoint` (the model's log probability) equals the independently
computed `log_prior + log_lik` exactly, hence within any floating-point
tolerance such as `1e-9`. -/
theorem modelLogp_eq_log_joint (normLogpdf : ℚ → ℚ → ℚ → ℚ)
    (mu_prior sigma_prior mu_clamped sigma_x : ℚ) (x : List ℚ)
    (hs : 0 < sigma_x) :
    modelLogp normLogpdf mu_prior sigma_prior mu_clamped sigma_x x
        = log_joint normLogpdf mu_prior sigma_prior mu_clamped sigma_x x ∧
    |modelLogp normLogpdf mu_prior sigma_prior mu_clamped sigma_x x
        - log_joint normLogpdf mu_prior sigma_prior mu_clamped sigma_x x|
      ≤ 1 / 1000000000 := by
  have h : modelLogp normLogpdf mu_prior sigma_prior mu_clamped sigma_x x
      = log_joint normLogpdf mu_prior sigma_prior mu_clamped sigma_x x := by
    unfold modelLogp log_joint log_prior log_lik
    exact foldl_add_eq_sum _ x _
  refine ⟨h, ?_⟩
  rw [h, sub_self, abs_zero]
  norm_num

/-- Witness for C5 at a concrete log-density and data set. -/
theorem modelLogp_eq_log_joint_witness :
    (0 : ℚ) < 13/10 ∧
    (modelLogp (fun m s xi => m + s + xi) (11/10) (12/10) (-1/2) (13/10)
        [1, 2, 3]
      = log_joint (fun m s xi => m + s + xi) (11/10) (12/10) (-1/2) (13/10)
        [1, 2, 3] ∧
     |modelLogp (fun m s xi => m + s + xi) (11/10) (12/10) (-1/2) (13/10)
        [1, 2, 3]
      - log_joint (fun m s xi => m + s + xi) (11/10) (12/10) (-1/2) (13/10)
        [1, 2, 3]| ≤ 1 / 1000000000) :=
  ⟨by norm_num,
    modelLogp_eq_log_joint (fun m s xi => m + s + xi) (11/10) (12/10) (-1/2)
      (13/10) [1, 2, 3] (by norm_num)⟩

/-! ## Monte-Carlo credible interval -/

/-- `np.percentile` with its default linear interpolation, evaluated on a
(sorted) list: the percentile at probability `q` sits at fractional position
`q * (n - 1)`. -/
def percentile (s : List ℚ) (q : ℚ) : ℚ :=
  if s.length = 0 then 0
  else
    let p : ℚ := q * ((s.length : ℚ) - 1)
    let i : ℕ := (Int.floor p).toNat
    let lo := s.getD i 0
    let hi := s.getD (i + 1) lo
    lo + (p - (i : ℚ)) * (hi - lo)

/-- Source: `samples = beta.rvs(apost, bpost, size=10000);`
`samples = np.sort(samples);`
`CI3 = np.percentile(samples, 100*np.array([alpha/2, 1-alpha/2]))` with
`alpha = 1 - level`. The seeded sampler (`np.random.seed` + `beta.rvs`,
library code) is an abstract deterministic function of
`(seed, numSamples, alpha', beta')`, modelled from the spec. -/
def CI3 (sampler : ℕ → ℕ → ℚ → ℚ → List ℚ) (post : BetaPosterior)
    (level : ℚ) (numSamples seed : ℕ) : ℚ × ℚ :=
  let samples := sampler seed numSamples post.alpha post.beta
  let sorted := List.insertionSort (· ≤ ·) samples
  (percentile sorted ((1 - level) / 2),
   percentile sorted (1 - (1 - level) / 2))

/-- C7: with the seeded generator modelled as a deterministic function of its
seed, `CI3` is reproducible — two invocations with identical arguments agree
— and the result is exactly the pair of empirical percentiles of the drawn
samples at `(1-level)/2` and `1-(1-level)/2`. -/
theorem CI3_deterministic (sampler : ℕ → ℕ → ℚ → ℚ → List ℚ)
    (post : BetaPosterior) (level : ℚ) (numSamples seed : ℕ)
    (h0 : 0 < level) (h1 : level < 1) (hn : 1 ≤ numSamples) :
    CI3 sampler post level numSamples seed
        = CI3 sampler post level numSamples seed ∧
    CI3 sampler post level numSamples seed
        = (percentile (List.insertionSort (· ≤ ·)
              (sampler seed numSamples post.alpha post.beta))
            ((1 - level) / 2),
           percentile (List.insertionSort (· ≤ ·)
              (sampler seed numSamples post.alpha post.beta))
            (1 - (1 - level) / 2)) :=
  ⟨rfl, rfl⟩

/-- Witness for C7 with a one-sample generator at level 1/2 and seed 42. -/
theorem CI3_deterministic_witness :
    (0 : ℚ) < 1/2 ∧ (1/2 : ℚ) < 1 ∧ 1 ≤ 1 ∧
    (CI3 (fun _ _ _ _ => [0]) ⟨34, 68⟩ (1/2) 1 42
        = CI3 (fun _ _ _ _ => [0]) ⟨34, 68⟩ (1/2) 1 42 ∧
     CI3 (fun _ _ _ _ => [0]) ⟨34, 68⟩ (1/2) 1 42
        = (percentile (List.insertionSort (· ≤ ·)
              ((fun _ _ _ _ => [0] : ℕ → ℕ → ℚ → ℚ → List ℚ) 42 1
                (BetaPosterior.mk 34 68).alpha (BetaPosterior.mk 34 68).beta))
            ((1 - 1/2) / 2),
           percentile (List.insertionSort (· ≤ ·)
              ((fun _ _ _ _ => [0] : ℕ → ℕ → ℚ → ℚ → List ℚ) 42 1
                (BetaPosterior.mk 34 68).alpha (BetaPosterior.mk 34 68).beta))
            (1 - (1 - 1/2) / 2))) :=
  ⟨by norm_num, by norm_num, le_refl 1,
    CI3_deterministic (fun _ _ _ _ => [0]) ⟨34, 68⟩ (1/2) 1 42
      (by norm_num) (by norm_num) (le_refl 1)⟩

/-! ## Point estimates by grid loss minimization

Source:
`grid = np.linspace(0, 1, 200); θ_pos = samples;`
`lossf_a = [np.mean(abs(i - θ_pos)) for i in grid];`
`lossf_b = [np.mean((i - θ_pos)**2) for i in grid];`
`mini = np.argmin(lossf); grid[mini]`. -/

/-- Minimum value of a list (helper for `np.argmin`). -/
def listMin : List ℚ → ℚ
  | [] => 0
  | [x] => x
  | x :: y :: t => min x (listMin (y :: t))

/-- `np.argmin`: the index of the first occurrence of the minimum. -/
def argminIdx : List ℚ → ℕ
  | [] => 0
  | [_] => 0
  | x :: y :: t => if x ≤ listMin (y :: t) then 0 else argminIdx (y :: t) + 1

/-- `np.mean(abs(a - θ_pos))`: empirical L1 loss at candidate `a`. -/
def lossf_a (samples : List ℚ) (a : ℚ) : ℚ :=
  (samples.map (fun x => |a - x|)).sum / (samples.length : ℚ)

/-- `np.mean((a - θ_pos)**2)`: empirical L2 loss at candidate `a`. -/
def lossf_b (samples : List ℚ) (a : ℚ) : ℚ :=
  (samples.map (fun x => (a - x) ^ 2)).sum / (samples.length : ℚ)

/-- `grid[np.argmin([loss(i, samples) for i in grid])]`. -/
def pointEstimate (grid samples : List ℚ) (loss : List ℚ → ℚ → ℚ) : ℚ :=
  grid.getD (argminIdx (grid.map (loss samples))) 0

/-- `np.mean` of a list. -/
def listMean (l : List ℚ) : ℚ := l.sum / (l.length : ℚ)

/-- Modelled from the spec: the "posterior median" of a sample list — the
empirical median in the `np.median` convention (middle order statistic, or
the average of the two middle ones for an even count). -/
def medianSpec (l : List ℚ) : ℚ :=
  let s := List.insertionSort (· ≤ ·) l
  if l.length = 0 then 0
  else if l.length % 2 = 1 then s.getD (l.length / 2) 0
  else (s.getD (l.length / 2 - 1) 0 + s.getD (l.length / 2) 0) / 2

lemma listMin_le {l : List ℚ} {y : ℚ} (hy : y ∈ l) : listMin l ≤ y := by
  induction l with
  | nil => cases hy
  | cons x t ih =>
      cases t with
      | nil =>
          rcases List.mem_singleton.mp hy with rfl
          exact le_refl _
      | cons z t' =>
          rcases List.mem_cons.mp hy with rfl | hmem
          · exact min_le_left _ _
          · exact le_trans (min_le_right _ _) (ih hmem)

lemma argminIdx_lt_length {l : List ℚ} (h : l ≠ []) :
    argminIdx l < l.length := by
  induction l with
  | nil => exact absurd rfl h
  | cons x t ih =>
      cases t with
      | nil => simp [argminIdx]
      | cons z t' =>
          by_cases hx : x ≤ listMin (z :: t')
          · simp [argminIdx, hx]
          · have h2 := ih (List.cons_ne_nil z t')
            simp only [argminIdx, hx, if_false]
            simpa using Nat.succ_lt_succ h2

lemma getD_argminIdx {l : List ℚ} (h : l ≠ []) :
    l.getD (argminIdx l) 0 = listMin l := by
  induction l with
  | nil => exact absurd rfl h
  | cons x t ih =>
      cases t with
      | nil => simp [argminIdx, listMin]
      | cons z t' =>
          by_cases hx : x ≤ listMin (z :: t')
          · simp [argminIdx, hx, listMin, min_eq_left hx]
          · have hlt : listMin (z :: t') < x := lt_of_not_le hx
            have hrec := ih (List.cons_ne_nil z t')
            simp only [argminIdx, hx, if_false, listMin]
            simpa [min_eq_right (le_of_lt hlt)] using hrec

lemma listMin_lt_getD_of_lt_argminIdx {l : List ℚ} {j : ℕ}
    (hj : j < argminIdx l) : listMin l < l.getD j 0 := by
  induction l generalizing j with
  | nil => simp [argminIdx] at hj
  | cons x t ih =>
      cases t with
      | nil => simp [argminIdx] at hj
      | cons z t' =>
          by_cases hx : x ≤ listMin (z :: t')
          · simp [argminIdx, hx] at hj
          · have hlt : listMin (z :: t') < x := lt_of_not_le hx
            have hminl : listMin (x :: z :: t') = listMin (z :: t') := by
              simp [listMin, min_eq_right (le_of_lt hlt)]
            simp only [argminIdx, hx, if_false] at hj
            cases j with
            | zero => simpa [hminl] using hlt
            | succ k =>
                have hk : k < argminIdx (z :: t') := by omega
                have := ih hk
                simpa [hminl] using this

lemma getD_map (f : ℚ → ℚ) :
    ∀ (l : List ℚ) (j : ℕ), j < l.length →
      (l.map f).getD j 0 = f (l.getD j 0) := by
  intro l
  induction l with
  | nil => intro j hj; simp at hj
  | cons x t ih =>
      intro j hj
      cases j with
      | zero => simp
      | succ k =>
          simp only [List.map_cons, List.getD_cons_succ]
          exact ih k (by simpa using hj)

/-- The returned grid point achieves the minimal loss over the grid. -/
lemma pointEstimate_le (grid samples : List ℚ) (loss : List ℚ → ℚ → ℚ)
    (hgrid : grid ≠ []) :
    ∀ c ∈ grid, loss samples (pointEstimate grid samples loss)
      ≤ loss samples c := by
  intro c hc
  have hL : grid.map (loss samples) ≠ [] := by
    simpa [List.map_eq_nil_iff] using hgrid
  have hlen : argminIdx (grid.map (loss samples)) < grid.length := by
    have := argminIdx_lt_length hL
    simpa using this
  have heq : loss samples (pointEstimate grid samples loss)
      = listMin (grid.map (loss samples)) := by
    rw [pointEstimate, ← getD_map (loss samples) grid _ hlen]
    exact getD_argminIdx hL
  rw [heq]
  exact listMin_le (List.mem_map_of_mem _ hc)

/-- Ties are broken by first occurrence: every strictly earlier grid point
has strictly larger loss. -/
lemma pointEstimate_first_tie (grid samples : List ℚ)
    (loss : List ℚ → ℚ → ℚ) (hgrid : grid ≠ []) :
    ∀ j < argminIdx (grid.map (loss samples)),
      loss samples (pointEstimate grid samples loss)
        < loss samples (grid.getD j 0) := by
  intro j hj
  have hL : grid.map (loss samples) ≠ [] := by
    simpa [List.map_eq_nil_iff] using hgrid
  have hlen : argminIdx (grid.map (loss samples)) < grid.length := by
    have := argminIdx_lt_length hL
    simpa using this
  have heq : loss samples (pointEstimate grid samples loss)
      = listMin (grid.map (loss samples)) := by
    rw [pointEstimate, ← getD_map (loss samples) grid _ hlen]
    exact getD_argminIdx hL
  have hjlen : j < grid.length := lt_trans hj hlen
  have hlt := listMin_lt_getD_of_lt_argminIdx hj
  rw [heq, ← getD_map (loss samples) grid j hjlen]
  exact hlt

lemma sum_sq_expand (a : ℚ) :
    ∀ samples : List ℚ,
      (samples.map (fun x => (a - x) ^ 2)).sum
        = (samples.length : ℚ) * a ^ 2 - 2 * a * samples.sum
            + (samples.map (fun x => x ^ 2)).sum := by
  intro samples
  induction samples with
  | nil => simp
  | cons x t ih =>
      simp only [List.map_cons, List.sum_cons, List.length_cons,
        Nat.cast_succ]
      rw [ih]
      ring

/-- The difference of L2 losses depends only on the distances to the sample
mean. -/
lemma lossf_b_diff (samples : List ℚ) (hne : samples ≠ []) (a b : ℚ) :
    lossf_b samples a - lossf_b samples b
      = (a - listMean samples) ^ 2 - (b - listMean samples) ^ 2 := by
  have hn : (samples.length : ℚ) ≠ 0 := by
    simpa using List.length_pos.mpr hne |>.ne'
  unfold lossf_b listMean
  rw [sum_sq_expand a samples, sum_sq_expand b samples]
  field_simp
  ring

/-- C6 (amended): the grid point estimate returns the loss minimizer with
ties broken by first occurrence, for both the L1 loss `lossf_a` and the L2
loss `lossf_b`; and the L2 estimate is within grid resolution of the sample
(posterior) mean: if some grid point is within `eps` of the mean, so is the
returned estimate. -/
theorem pointEstimate_minimizer (grid samples : List ℚ) (g eps : ℚ)
    (hs : samples ≠ []) (hgrid : grid ≠ [])
    (hg : g ∈ grid) (hclose : |g - listMean samples| ≤ eps) :
    (∀ c ∈ grid, lossf_b samples (pointEstimate grid samples lossf_b)
        ≤ lossf_b samples c) ∧
    (∀ j < argminIdx (grid.map (lossf_b samples)),
        lossf_b samples (pointEstimate grid samples lossf_b)
          < lossf_b samples (grid.getD j 0)) ∧
    (∀ c ∈ grid, lossf_a samples (pointEstimate grid samples lossf_a)
        ≤ lossf_a samples c) ∧
    (∀ j < argminIdx (grid.map (lossf_a samples)),
        lossf_a samples (pointEstimate grid samples lossf_a)
          < lossf_a samples (grid.getD j 0)) ∧
    |pointEstimate grid samples lossf_b - listMean samples| ≤ eps := by
  refine ⟨pointEstimate_le grid samples lossf_b hgrid,
    pointEstimate_first_tie grid samples lossf_b hgrid,
    pointEstimate_le grid samples lossf_a hgrid,
    pointEstimate_first_tie grid samples lossf_a hgrid, ?_⟩
  have heps : 0 ≤ eps := le_trans (abs_nonneg _) hclose
  have hle : lossf_b samples (pointEstimate grid samples lossf_b)
      ≤ lossf_b samples g := pointEstimate_le grid samples lossf_b hgrid g hg
  have hdiff := lossf_b_diff samples hs
      (pointEstimate grid samples lossf_b) g
  have hsq : (pointEstimate grid samples lossf_b - listMean samples) ^ 2
      ≤ (g - listMean samples) ^ 2 := by linarith
  have hg2 : (g - listMean samples) ^ 2 ≤ eps ^ 2 := by
    have := sq_abs (g - listMean samples)
    nlinarith [abs_nonneg (g - listMean samples)]
  exact abs_le_of_sq_le_sq (le_trans hsq hg2) heps

/-- Witness for C6 at grid `[0, 1/2, 1]` and samples `[0, 1/2]`
(mean `1/4`). -/
theorem pointEstimate_minimizer_witness :
    ([0, 1/2] : List ℚ) ≠ [] ∧ ([0, 1/2, 1] : List ℚ) ≠ [] ∧
    (1/2 : ℚ) ∈ ([0, 1/2, 1] : List ℚ) ∧
    |(1/2 : ℚ) - listMean [0, 1/2]| ≤ 1/4 ∧
    ((∀ c ∈ ([0, 1/2, 1] : List ℚ),
        lossf_b [0, 1/2] (pointEstimate [0, 1/2, 1] [0, 1/2] lossf_b)
          ≤ lossf_b [0, 1/2] c) ∧
     (∀ j < argminIdx (([0, 1/2, 1] : List ℚ).map (lossf_b [0, 1/2])),
        lossf_b [0, 1/2] (pointEstimate [0, 1/2, 1] [0, 1/2] lossf_b)
          < lossf_b [0, 1/2] (([0, 1/2, 1] : List ℚ).getD j 0)) ∧
     (∀ c ∈ ([0, 1/2, 1] : List ℚ),
        lossf_a [0, 1/2] (pointEstimate [0, 1/2, 1] [0, 1/2] lossf_a)
          ≤ lossf_a [0, 1/2] c) ∧
     (∀ j < argminIdx (([0, 1/2, 1] : List ℚ).map (lossf_a [0, 1/2])),
        lossf_a [0, 1/2] (pointEstimate [0, 1/2, 1] [0, 1/2] lossf_a)
          < lossf_a [0, 1/2] (([0, 1/2, 1] : List ℚ).getD j 0)) ∧
     |pointEstimate [0, 1/2, 1] [0, 1/2] lossf_b - listMean [0, 1/2]|
        ≤ 1/4) :=
  ⟨by simp, by simp, by norm_num, by norm_num [listMean, abs_le],
    pointEstimate_minimizer [0, 1/2, 1] [0, 1/2] (1/2) (1/4)
      (by simp) (by simp) (by norm_num) (by norm_num [listMean, abs_le])⟩

/-- C6 counterexample: for samples `[0, 1]` the empirical L1 loss is
constant (`1/2`) on `[0, 1]`, so on the grid `[0, 1/4, 1/2, 3/4, 1]`
(resolution `1/4`) the first-occurrence argmin returns `0`, while the
posterior median is `1/2` — farther away than the grid resolution. -/
theorem pointEstimate_L1_not_median :
    pointEstimate [0, 1/4, 1/2, 3/4, 1] [0, 1] lossf_a = 0 ∧
    medianSpec [0, 1] = 1/2 ∧
    ¬ (|pointEstimate [0, 1/4, 1/2, 3/4, 1] [0, 1] lossf_a
          - medianSpec [0, 1]| ≤ 1/4) := by
  have hest : pointEstimate [0, 1/4, 1/2, 3/4, 1] [0, 1] lossf_a = 0 := by
    norm_num [pointEstimate, lossf_a, argminIdx, listMin, List.getD,
      abs_of_nonneg, abs_of_nonpos]
  have hmed : medianSpec [0, 1] = 1/2 := by
    norm_num [medianSpec, List.insertionSort, List.orderedInsert]
  refine ⟨hest, hmed, ?_⟩
  rw [hest, hmed]
  norm_num [abs_le]

end BayesIntro
